import Mathlib

/-!
Verification development for the article-index / URL-reconciliation scripts
of the mynews repository.

The development shallowly embeds the two core scripts:

* watch-articles.js — the Metadata Extractor (extractMetadataFromHTML),
  the Index Builder (regenerateArticlesJSON) and the Directory Watcher's
  debounce logic (startWatcher);
* validate-urls.js — the Liveness Checker (checkURL), the Replacement
  Finder (findReplacementURL) and the Reconciler (validateArticle,
  validateAllArticles).

External collaborators that are not part of the repository are modelled
as pure parameters or small modelled fragments:

* the network (node-fetch) is a pure oracle mapping a request method and
  a URL to an outcome;
* cheerio URL extraction (extractURLs) is passed as a function parameter;
* the WHATWG URL parser and JavaScript Date parsing are modelled as the
  fragments relevant to the data this program handles, each documented at
  its definition.
-/

/-! ## JavaScript string primitives -/

/-- The double-quote character. -/
def quoteChar : Char := Char.ofNat 34

/-- JavaScript String.prototype.startsWith (computation on the character
list, so that every definition reduces by evaluation). -/
def jsStartsWith (s pre : String) : Bool := pre.data.isPrefixOf s.data

/-- JavaScript String.prototype.endsWith. -/
def jsEndsWith (s suf : String) : Bool := suf.data.isSuffixOf s.data

/-- Drop the first n characters of a string. -/
def jsDrop (s : String) (n : Nat) : String := ⟨s.data.drop n⟩

/-- Case-insensitive character comparison (ASCII case folding, matching the
regex i-flag on the ASCII marker strings used by the extractor). -/
def icEq (a b : Char) : Bool := a.toLower == b.toLower

/-- Case-insensitive prefix test on character lists. -/
def icIsPrefixOf : List Char → List Char → Bool
  | [], _ => true
  | _ :: _, [] => false
  | a :: as, b :: bs => icEq a b && icIsPrefixOf as bs

/-- Leftmost match of the extractor's meta-marker regex: scans for the first
position where the pattern (the marker prefix) matches case-insensitively and
a closing double quote follows the captured run of non-quote characters; the
capture is that run.  Mirrors the regex
<meta name="NAME" content="([^"]*)" with the i flag: the whole pattern,
including the closing quote, must match for a capture to be produced. -/
def findMetaCapture (pat : List Char) : List Char → Option String
  | [] => none
  | c :: rest =>
    if icIsPrefixOf pat (c :: rest) then
      let after := (c :: rest).drop pat.length
      let cap := after.takeWhile (fun ch => ch != quoteChar)
      if cap.length < after.length then some ⟨cap⟩ else findMetaCapture pat rest
    else findMetaCapture pat rest

/-- getMeta from watch-articles.js: first case-insensitive match of the
marker pattern, empty string when absent. -/
def getMeta (content name : String) : String :=
  (findMetaCapture ("<meta name=\"" ++ name ++ "\" content=\"").data content.data).getD ""

/-- JavaScript String.prototype.replace with a plain-string pattern:
replaces only the first occurrence. -/
def jsReplaceFirstAux (pat rep : List Char) : List Char → List Char
  | [] => if pat.isEmpty then rep else []
  | c :: rest =>
    if pat.isPrefixOf (c :: rest) then rep ++ (c :: rest).drop pat.length
    else c :: jsReplaceFirstAux pat rep rest

/-- JavaScript s.replace(pat, rep) for a string pattern (first occurrence). -/
def jsReplaceFirst (s pat rep : String) : String :=
  ⟨jsReplaceFirstAux pat.data rep.data s.data⟩

/-- Global, left-to-right, non-overlapping replacement of a non-empty
pattern; replacements are not rescanned.  This is the behaviour of
JavaScript String.prototype.replace with an escaped-literal global regex.
The fuel argument is the length of the scanned list (each step consumes at
least one character). -/
def jsReplaceAllAux (pat rep : List Char) : Nat → List Char → List Char
  | _, [] => []
  | 0, s => s
  | fuel + 1, c :: rest =>
    if pat.isPrefixOf (c :: rest) then
      rep ++ jsReplaceAllAux pat rep fuel (rest.drop (pat.length - 1))
    else c :: jsReplaceAllAux pat rep fuel rest

/-- replaceURL from validate-urls.js: the old URL is regex-escaped and
replaced globally, i.e. a literal global substitution.  An empty pattern
never occurs (extracted URLs start with a scheme); the empty-pattern
behaviour of a global regex is outside the modelled fragment and the model
returns the input unchanged there. -/
def replaceURL (html oldUrl newUrl : String) : String :=
  match oldUrl.data with
  | [] => html
  | p :: ps => ⟨jsReplaceAllAux (p :: ps) newUrl.data html.data.length html.data⟩

/-- Substring occurrence test on character lists. -/
def containsChars (pat : List Char) : List Char → Bool
  | [] => pat.isEmpty
  | c :: rest => pat.isPrefixOf (c :: rest) || containsChars pat rest

/-- Substring occurrence test on strings. -/
def containsStr (pat s : String) : Bool := containsChars pat.data s.data

/-! ## Modelled fragment of JavaScript Date parsing

new Date(s) on a calendar date of the ECMA-262 Date Time String Format
(YYYY-MM-DD) yields UTC midnight of that day; a string not in an accepted
format yields an Invalid Date (time value NaN).  Only the calendar-date
form is modelled here — it is the form the article generator writes into
the article-date marker; every other input is mapped to none (Invalid
Date). -/

/-- Decimal digit value of a character. -/
def digitVal (c : Char) : Option Nat :=
  if c.isDigit then some (c.toNat - 48) else none

/-- Gregorian leap-year test. -/
def isLeapYear (y : Nat) : Bool :=
  (y % 4 == 0 && y % 100 != 0) || y % 400 == 0

/-- Days in a month of the proleptic Gregorian calendar. -/
def daysInMonth (y m : Nat) : Nat :=
  if m == 2 then (if isLeapYear y then 29 else 28)
  else if m == 4 || m == 6 || m == 9 || m == 11 then 30
  else 31

/-- Days from the Unix epoch (1970-01-01) to the given civil date
(standard era-based conversion). -/
def daysFromCivil (y m d : Int) : Int :=
  let y2 : Int := if m ≤ 2 then y - 1 else y
  let era : Int := (if 0 ≤ y2 then y2 else y2 - 399) / 400
  let yoe : Int := y2 - era * 400
  let doy : Int := (153 * (if 2 < m then m - 3 else m + 9) + 2) / 5 + d - 1
  let doe : Int := yoe * 365 + yoe / 4 - yoe / 100 + doy
  era * 146097 + doe - 719468

/-- Time value (milliseconds since the epoch) of new Date(s) for the
modelled YYYY-MM-DD fragment; none models an Invalid Date (NaN). -/
def jsDateMs (s : String) : Option Int :=
  match s.data with
  | [y1, y2, y3, y4, h1, m1, m2, h2, d1, d2] =>
    if h1 = Char.ofNat 45 ∧ h2 = Char.ofNat 45 then
      match digitVal y1, digitVal y2, digitVal y3, digitVal y4,
            digitVal m1, digitVal m2, digitVal d1, digitVal d2 with
      | some a, some b, some c, some d, some e, some f, some g, some h =>
        let y := 1000 * a + 100 * b + 10 * c + d
        let mo := 10 * e + f
        let da := 10 * g + h
        if 1 ≤ mo ∧ mo ≤ 12 ∧ 1 ≤ da ∧ da ≤ daysInMonth y mo then
          some (86400000 * daysFromCivil (Int.ofNat y) (Int.ofNat mo) (Int.ofNat da))
        else none
      | _, _, _, _, _, _, _, _ => none
    else none
  | _ => none

/-! ## Metadata Extractor and Index Builder (watch-articles.js) -/

/-- The record produced per article file by extractMetadataFromHTML. -/
structure ArticleRecord where
  id : String
  title : String
  filename : String
  category : String
  author : String
  publishDate : String
  readTime : String
  excerpt : String
  thumbnailImage : String
  bannerImage : String
  sourceUrl : String
  isTrending : Bool
  isVideo : Bool
  videoUrl : String
  isJob : Bool
deriving DecidableEq, Repr

/-- Field extraction of extractMetadataFromHTML on a successfully read
file: each field is an independent first-match lookup of its marker. -/
def extractFields (filename content : String) : ArticleRecord where
  id := getMeta content "article-id"
  title := getMeta content "og:title"
  filename := filename
  category := getMeta content "article-category"
  author := getMeta content "article-author"
  publishDate := getMeta content "article-date"
  readTime := getMeta content "article-readtime"
  excerpt := getMeta content "description"
  thumbnailImage := getMeta content "og:image"
  bannerImage := getMeta content "og:image"
  sourceUrl := getMeta content "article-source"
  isTrending := getMeta content "article-trending" == "true"
  isVideo := getMeta content "article-video" == "true"
  videoUrl := getMeta content "article-video-url"
  isJob := false

/-- extractMetadataFromHTML: reading the file and extracting; a file whose
read fails (content = none) yields null (modelled as none). -/
def extractMetadataFromHTML (filename : String) (content : Option String) :
    Option ArticleRecord :=
  content.map (extractFields filename)

/-- The records the Index Builder keeps, in directory-scan order: files
with the .html extension whose extraction succeeded with a non-empty id
(the source's check: metadata and metadata.id truthy). -/
def keptRecords (files : List (String × Option String)) : List ArticleRecord :=
  (files.filter (fun f => jsEndsWith f.1 ".html")).filterMap (fun f =>
    match extractMetadataFromHTML f.1 f.2 with
    | some m => if m.id = "" then none else some m
    | none => none)

/-- Sort key of a record: new Date(a.publishDate or the literal
1970-01-01 when the field is empty/falsy). -/
def sortKeyMs (r : ArticleRecord) : Option Int :=
  jsDateMs (if r.publishDate = "" then "1970-01-01" else r.publishDate)

/-- The comparator of regenerateArticlesJSON: dateB - dateA, with a NaN
comparator value coerced to plus zero as ECMA-262 SortCompare prescribes
(any Invalid Date operand makes the difference NaN, hence 0 here). -/
def cmpRecords (a b : ArticleRecord) : Int :=
  match sortKeyMs b, sortKeyMs a with
  | some vb, some va => vb - va
  | _, _ => 0

/-- Boolean form of the sort relation: a may stay before b. -/
def recordLE (a b : ArticleRecord) : Bool := decide (cmpRecords a b ≤ 0)

/-- Stable insertion of x before the first element it is ≤ to. -/
def jsOrderedInsert (le : α → α → Bool) (x : α) : List α → List α
  | [] => [x]
  | y :: ys => if le x y then x :: y :: ys else y :: jsOrderedInsert le x ys

/-- Stable insertion sort.  ECMA-262 requires Array.prototype.sort to be
stable and consistent with the comparator; for a consistent comparator
that determines the output uniquely, and this sort realises it. -/
def jsStableSort (le : α → α → Bool) : List α → List α
  | [] => []
  | x :: xs => jsOrderedInsert le x (jsStableSort le xs)

/-- The sorted article list the Index Builder serializes (newest first). -/
def regenerateRecords (files : List (String × Option String)) :
    List ArticleRecord :=
  jsStableSort recordLE (keptRecords files)

/-! ## Index serialization (JSON.stringify with two-space indentation) -/

/-- One character of JSON.stringify string escaping. -/
def jsonEscapeChar (c : Char) : String :=
  if c = quoteChar then "\\\""
  else if c = Char.ofNat 92 then "\\\\"
  else if c = Char.ofNat 10 then "\\n"
  else if c = Char.ofNat 13 then "\\r"
  else if c = Char.ofNat 9 then "\\t"
  else if c = Char.ofNat 8 then "\\b"
  else if c = Char.ofNat 12 then "\\f"
  else if c.toNat < 32 then
    "\\u00" ++ ⟨[(if c.toNat / 16 < 10 then Char.ofNat (48 + c.toNat / 16)
                  else Char.ofNat (87 + c.toNat / 16)),
                 (if c.toNat % 16 < 10 then Char.ofNat (48 + c.toNat % 16)
                  else Char.ofNat (87 + c.toNat % 16))]⟩
  else String.singleton c

/-- JSON string escaping. -/
def jsonEscape (s : String) : String :=
  s.data.foldr (fun c acc => jsonEscapeChar c ++ acc) ""

/-- A JSON string literal. -/
def jsonStr (s : String) : String := "\"" ++ jsonEscape s ++ "\""

/-- A JSON boolean literal. -/
def jsonBool (b : Bool) : String := if b then "true" else "false"

/-- The key-value lines of one serialized record, in the insertion order
of the object literal built by extractMetadataFromHTML. -/
def recordFieldLines (r : ArticleRecord) : List String :=
  [ "\"id\": " ++ jsonStr r.id,
    "\"title\": " ++ jsonStr r.title,
    "\"filename\": " ++ jsonStr r.filename,
    "\"category\": " ++ jsonStr r.category,
    "\"author\": " ++ jsonStr r.author,
    "\"publishDate\": " ++ jsonStr r.publishDate,
    "\"readTime\": " ++ jsonStr r.readTime,
    "\"excerpt\": " ++ jsonStr r.excerpt,
    "\"thumbnailImage\": " ++ jsonStr r.thumbnailImage,
    "\"bannerImage\": " ++ jsonStr r.bannerImage,
    "\"sourceUrl\": " ++ jsonStr r.sourceUrl,
    "\"isTrending\": " ++ jsonBool r.isTrending,
    "\"isVideo\": " ++ jsonBool r.isVideo,
    "\"videoUrl\": " ++ jsonStr r.videoUrl,
    "\"isJob\": " ++ jsonBool r.isJob ]

/-- One record as JSON.stringify renders it at depth two with a two-space
gap. -/
def serializeRecord (r : ArticleRecord) : String :=
  "\x7b\n      " ++ String.intercalate ",\n      " (recordFieldLines r)
    ++ "\n    \x7d"

/-- JSON.stringify of the articles wrapper object with a two-space gap:
the exact bytes regenerateArticlesJSON writes to articles.json. -/
def serializeIndex (l : List ArticleRecord) : String :=
  match l with
  | [] => "\x7b\n  \"articles\": []\n\x7d"
  | _ :: _ =>
    "\x7b\n  \"articles\": [\n    "
      ++ String.intercalate ",\n    " (l.map serializeRecord)
      ++ "\n  ]\n\x7d"

/-- The filesystem state the watcher script touches: the articles
directory (none when unreadable) and the generated index file. -/
structure WatchFS where
  articles : Option (List (String × Option String))
  indexFile : Option String
deriving DecidableEq, Repr

/-- regenerateArticlesJSON: reads the directory, rebuilds and overwrites
the index; a failure to read the directory is caught, logged and swallowed
— the function returns normally (second component: the exit status the run
signals to the process, 0 meaning none/success, as the catch branch never
calls process.exit). -/
def regenerateArticlesJSON (fs : WatchFS) : WatchFS × Nat :=
  match fs.articles with
  | none => (fs, 0)
  | some files =>
    ({ fs with indexFile := some (serializeIndex (regenerateRecords files)) }, 0)

/-! ## Liveness Checker (validate-urls.js, checkURL) -/

/-- The request method of a probe. -/
inductive Method
  | head
  | get
deriving DecidableEq, Repr

/-- Outcome of one fetch: an exception/abort (fail) or a response with the
final status, the redirected flag and the final resolved URL (redirects
are followed by the fetch itself). -/
inductive FetchOutcome
  | fail
  | resp (status : Nat) (redirected : Bool) (finalUrl : String)
deriving DecidableEq, Repr

/-- The network, modelled as a pure oracle. -/
def Network := Method → String → FetchOutcome

/-- The value checkURL resolves with.  The ok flag is fetch's
response.ok; on the double-failure path the source returns status 0 with
an error message (the message is not modelled). -/
structure CheckResult where
  url : String
  status : Nat
  ok : Bool
  redirected : Bool
  finalUrl : Option String
deriving DecidableEq, Repr

/-- checkURL: a HEAD probe; only if that probe itself throws, a GET probe;
if both throw, status 0 and not ok.  response.ok is status in [200, 300). -/
def checkURL (net : Network) (url : String) : CheckResult :=
  match net Method.head url with
  | .resp s r f => ⟨url, s, decide (200 ≤ s ∧ s < 300), r, some f⟩
  | .fail =>
    match net Method.get url with
    | .resp s r f => ⟨url, s, decide (200 ≤ s ∧ s < 300), r, some f⟩
    | .fail => ⟨url, 0, false, false, none⟩

/-- The probes checkURL issues, in order. -/
def checkURLProbes (net : Network) (url : String) : List Method :=
  match net Method.head url with
  | .resp _ _ _ => [Method.head]
  | .fail => [Method.head, Method.get]

/-- The response checkURL's classification is based on: the HEAD response,
or the GET response when HEAD threw. -/
def effectiveResponse (net : Network) (url : String) : FetchOutcome :=
  match net Method.head url with
  | .fail => net Method.get url
  | o => o

/-! ## Replacement Finder (validate-urls.js, findReplacementURL) -/

/-- The characters encodeURIComponent leaves unescaped: ASCII
alphanumerics and - _ . ! ~ * apostrophe ( ). -/
def ecuUnreserved (c : Char) : Bool :=
  c.isAlpha || c.isDigit || c == Char.ofNat 45 || c == Char.ofNat 95
    || c == Char.ofNat 46 || c == Char.ofNat 33 || c == Char.ofNat 126
    || c == Char.ofNat 42 || c == Char.ofNat 39 || c == Char.ofNat 40
    || c == Char.ofNat 41

/-- An uppercase hexadecimal digit. -/
def hexDigitU (n : Nat) : Char :=
  if n < 10 then Char.ofNat (48 + n) else Char.ofNat (55 + n)

/-- The UTF-8 bytes of one code point. -/
def utf8BytesOfChar (c : Char) : List Nat :=
  let n := c.toNat
  if n < 0x80 then [n]
  else if n < 0x800 then [0xC0 + n / 0x40, 0x80 + n % 0x40]
  else if n < 0x10000 then
    [0xE0 + n / 0x1000, 0x80 + (n / 0x40) % 0x40, 0x80 + n % 0x40]
  else
    [0xF0 + n / 0x40000, 0x80 + (n / 0x1000) % 0x40,
     0x80 + (n / 0x40) % 0x40, 0x80 + n % 0x40]

/-- Percent-encoding of one byte, uppercase hex. -/
def pctEncodeByte (b : Nat) : List Char :=
  [Char.ofNat 37, hexDigitU (b / 16), hexDigitU (b % 16)]

/-- JavaScript encodeURIComponent: unreserved characters pass through,
every other code point is written as the percent-encoded bytes of its
UTF-8 encoding. -/
def encodeURIComponent (s : String) : String :=
  ⟨s.data.foldr (fun c acc =>
    (if ecuUnreserved c then [c]
     else (utf8BytesOfChar c).foldr (fun b a => pctEncodeByte b ++ a) []) ++ acc) []⟩

/-- Modelled fragment of the WHATWG URL parser used through new URL:
hostname extraction for http/https URLs — strip the scheme, cut the
authority at the first of /, ? or #, drop any userinfo before the last @,
drop a :port suffix, lowercase the host; a missing scheme or empty host is
a parse failure (new URL throws).  Hosts outside this fragment
(IPv6 literals, non-ASCII) are not modelled. -/
def parseHostname (u : String) : Option String :=
  let rest? : Option (List Char) :=
    if jsStartsWith u "https://" then some (u.data.drop 8)
    else if jsStartsWith u "http://" then some (u.data.drop 7)
    else none
  match rest? with
  | none => none
  | some rest =>
    let auth := rest.takeWhile (fun c =>
      !(c == Char.ofNat 47 || c == Char.ofNat 63 || c == Char.ofNat 35))
    let hostPort :=
      if auth.contains (Char.ofNat 64) then
        (auth.reverse.takeWhile (fun c => c != Char.ofNat 64)).reverse
      else auth
    let host := hostPort.takeWhile (fun c => c != Char.ofNat 58)
    if host.isEmpty then none else some ⟨host.map Char.toLower⟩

/-- Replacement of the first scheme occurrence by the regex
https?:\/\/ with https://www. — at each position an https:// match is
preferred over http:// (greedy s?), scanning left to right. -/
def jsReplaceSchemeWwwAux : List Char → List Char
  | [] => []
  | c :: rest =>
    if "https://".data.isPrefixOf (c :: rest) then
      "https://www.".data ++ (c :: rest).drop 8
    else if "http://".data.isPrefixOf (c :: rest) then
      "https://www.".data ++ (c :: rest).drop 7
    else c :: jsReplaceSchemeWwwAux rest

/-- url.replace(https?-scheme-regex, https-www prefix). -/
def jsReplaceSchemeWww (u : String) : String := ⟨jsReplaceSchemeWwwAux u.data⟩

/-- The candidate variations, in source order: first https:// occurrence
swapped to http://, first www. occurrence removed, scheme replaced by
https://www., and a web-archive snapshot lookup. -/
def variations (originalUrl : String) : List String :=
  [ jsReplaceFirst originalUrl "https://" "http://",
    jsReplaceFirst originalUrl "www." "",
    jsReplaceSchemeWww originalUrl,
    "https://web.archive.org/web/*/" ++ originalUrl ]

/-- The newUrl reported on success: result.finalUrl falls back to the
variation when absent or empty (JavaScript or-else on a falsy string). -/
def chosenUrl (r : CheckResult) (v : String) : String :=
  match r.finalUrl with
  | some f => if f = "" then v else f
  | none => v

/-- The loop of findReplacementURL: skip candidates equal to the original,
return the first the Liveness Checker accepts together with its check
result. -/
def firstWorkingVariation (net : Network) (originalUrl : String) :
    List String → Option (String × CheckResult)
  | [] => none
  | v :: vs =>
    if v = originalUrl then firstWorkingVariation net originalUrl vs
    else
      let r := checkURL net v
      if r.ok then some (v, r) else firstWorkingVariation net originalUrl vs

/-- The three result shapes of findReplacementURL: a replacement found, no
replacement with manual-lookup suggestions, or an exception (an
unparsable URL) caught into an error result without suggestions. -/
inductive Replacement
  | found (newUrl : String)
  | notFound (suggestions : List String)
  | parseError
deriving DecidableEq, Repr

/-- findReplacementURL: parse the URL (throwing on failure), probe the
variations in order, first success wins; otherwise report the two
suggestion strings (a search-engine query over the domain and context, and
a web-archive lookup). -/
def findReplacementURL (net : Network) (originalUrl context : String) :
    Replacement :=
  match parseHostname originalUrl with
  | none => .parseError
  | some domain =>
    match firstWorkingVariation net originalUrl (variations originalUrl) with
    | some (v, r) => .found (chosenUrl r v)
    | none => .notFound
      [ "Search Google: https://www.google.com/search?q="
          ++ encodeURIComponent (domain ++ " " ++ context),
        "Archive: https://web.archive.org/web/*/" ++ originalUrl ]

/-! ## Reconciler (validate-urls.js, validateArticle / validateAllArticles)

URL extraction from the HTML body is performed by the cheerio library in
the source (extractURLs); it is an external collaborator here and is
passed to the Reconciler as a function parameter named extractURLs. -/

/-- One entry of the per-file results array (pushed only for URLs whose
check was not ok). -/
structure URLResult where
  url : String
  status : Nat
  fixed : Bool
  newUrl : Option String
deriving DecidableEq, Repr

/-- The per-URL loop of validateArticle, threading the in-memory working
copy of the file: each not-ok URL is recorded; when a replacement is found
the working copy undergoes a global substitution and the fixed counter is
bumped.  The source checks URLs in concurrent batches of five, but the
network is a pure oracle and results are consumed in list order, so the
sequential fold is observationally identical.  Returns the final working
copy, the results array and fixedCount. -/
def processURLs (net : Network) (context : String) :
    List String → String → String × List URLResult × Nat
  | [], content => (content, [], 0)
  | u :: rest, content =>
    let c := checkURL net u
    if c.ok then processURLs net context rest content
    else
      match findReplacementURL net u context with
      | .found newUrl =>
        let rec0 := processURLs net context rest (replaceURL content u newUrl)
        (rec0.1, ⟨u, c.status, true, some newUrl⟩ :: rec0.2.1, rec0.2.2 + 1)
      | .notFound _ =>
        let rec0 := processURLs net context rest content
        (rec0.1, ⟨u, c.status, false, none⟩ :: rec0.2.1, rec0.2.2)
      | .parseError =>
        let rec0 := processURLs net context rest content
        (rec0.1, ⟨u, c.status, false, none⟩ :: rec0.2.1, rec0.2.2)

/-- The value validateArticle returns to its caller.  In the source the
ok shape carries the urls count, the filtered broken list and the fixed
count; err is the catch branch for an unreadable file.  (In the source's
early return for a file with zero URLs the urls field is the empty array
rather than the number 0; the summary's urls-or-zero coercion makes that
observable only for zero-URL files, which is noted here and modelled as
the count 0.) -/
inductive FileResult
  | ok (urls : Nat) (broken : List URLResult) (fixed : Nat)
  | err
deriving DecidableEq, Repr

/-- Everything one validateArticle call does: the resulting file state,
the contents passed to writeFile (in order), the in-memory results array
and the returned record. -/
structure FileOutcome where
  file : String × Option String
  writes : List String
  results : List URLResult
  ret : FileResult
deriving DecidableEq, Repr

/-- validateArticle: read the file (an unreadable file is caught and
reported as err), extract its URLs, run the per-URL loop, and write the
modified working copy back — once, and only when at least one URL was
fixed. -/
def validateArticle (net : Network) (extractURLs : String → List String)
    (filePath : String) (content : Option String) : FileOutcome :=
  match content with
  | none => ⟨(filePath, none), [], [], .err⟩
  | some c =>
    let urls := extractURLs c
    let res := processURLs net filePath urls c
    { file := (filePath, some (if 0 < res.2.2 then res.1 else c))
      writes := if 0 < res.2.2 then [res.1] else []
      results := res.2.1
      ret := .ok urls.length (res.2.1.filter (fun r => !r.fixed)) res.2.2 }

/-- The summary block of the report validateAllArticles writes (the
timestamp and the per-file details array of the report are not modelled).
stillBroken is totalBroken - totalFixed as a JavaScript number, hence an
integer that may be negative. -/
structure Summary where
  totalArticles : Nat
  totalUrls : Nat
  totalBroken : Nat
  totalFixed : Nat
  stillBroken : Int
deriving DecidableEq, Repr

/-- The filesystem state the Reconciler touches: the articles directory
(none when unreadable) and the report file. -/
structure ReconcilerFS where
  articles : Option (List (String × Option String))
  report : Option Summary
deriving DecidableEq, Repr

/-- Summary totals over the per-file results, as the three reduce calls
compute them (an err entry contributes zero everywhere). -/
def summarize (totalArticles : Nat) (rs : List FileResult) : Summary :=
  let totalUrls := rs.foldl (fun acc r =>
    acc + match r with | .ok u _ _ => u | .err => 0) 0
  let totalBroken := rs.foldl (fun acc r =>
    acc + match r with | .ok _ b _ => b.length | .err => 0) 0
  let totalFixed := rs.foldl (fun acc r =>
    acc + match r with | .ok _ _ n => n | .err => 0) 0
  ⟨totalArticles, totalUrls, totalBroken, totalFixed,
    (totalBroken : Int) - (totalFixed : Int)⟩

/-- validateAllArticles: when the directory cannot be read the catch
branch logs and calls process.exit(1) — nothing is written; otherwise
every .html file is validated sequentially (rewritten in place when fixes
were found), the summary is computed and the report written, and the run
ends normally (status 0).  Returns the resulting filesystem and the exit
status. -/
def validateAllArticles (net : Network) (extractURLs : String → List String)
    (fs : ReconcilerFS) : ReconcilerFS × Nat :=
  match fs.articles with
  | none => (fs, 1)
  | some files =>
    let outcomes := (files.filter (fun f => jsEndsWith f.1 ".html")).map
      (fun f => validateArticle net extractURLs f.1 f.2)
    let newFiles := files.map (fun f =>
      if jsEndsWith f.1 ".html" then (validateArticle net extractURLs f.1 f.2).file
      else f)
    let results := outcomes.map FileOutcome.ret
    ({ articles := some newFiles
       report := some (summarize (files.filter (fun f => jsEndsWith f.1 ".html")).length results) }, 0)

/-! ## Directory Watcher debounce (watch-articles.js, startWatcher) -/

/-- The debounce window of scheduleRegeneration, in milliseconds. -/
def debounceWindowMs : Nat := 1000

/-- The watcher's timer state: the scheduled fire time of the pending
rebuild timer, and the times at which rebuilds have fired. -/
structure DebounceState where
  pending : Option Nat
  fired : List Nat
deriving DecidableEq, Repr

/-- One qualifying filesystem event at time t: a pending timer that
expired before t has fired (its rebuild ran); scheduleRegeneration then
clears any pending timer and schedules a new one at t plus the window. -/
def debounceStep (s : DebounceState) (t : Nat) : DebounceState :=
  match s.pending with
  | some f =>
    if f ≤ t then { pending := some (t + debounceWindowMs), fired := s.fired ++ [f] }
    else { pending := some (t + debounceWindowMs), fired := s.fired }
  | none => { pending := some (t + debounceWindowMs), fired := s.fired }

/-- The rebuild fire times produced by a sequence of qualifying events
(times in non-decreasing order), including the pending timer left after
the last event, which fires once the window elapses. -/
def rebuildTimes (events : List Nat) : List Nat :=
  let s := events.foldl debounceStep ⟨none, []⟩
  s.fired ++ (match s.pending with | some f => [f] | none => [])

/-! ## The Replacement Finder as the specification words it

For the refinement comparison of claim C6 the candidate transformations
are also defined following the specification's wording — scheme swap
https to http, removal of a leading www. host label, addition of a
leading www. host label, web-archive lookup — to be compared with the
source-derived variations above. -/

/-- Spec wording: swap the scheme https to http (a scheme operation, not
a textual first-occurrence replace). -/
def claimedSchemeSwap (u : String) : String :=
  if jsStartsWith u "https://" then "http://" ++ jsDrop u 8 else u

/-- Spec wording: remove a leading www. host label. -/
def claimedRemoveWww (u : String) : String :=
  if jsStartsWith u "https://www." then "https://" ++ jsDrop u 12
  else if jsStartsWith u "http://www." then "http://" ++ jsDrop u 11
  else u

/-- Spec wording: add a leading www. host label (keeping the scheme). -/
def claimedAddWww (u : String) : String :=
  if jsStartsWith u "https://" then "https://www." ++ jsDrop u 8
  else if jsStartsWith u "http://" then "http://www." ++ jsDrop u 7
  else u

/-- The candidate list the claim describes, in the claimed order. -/
def claimedVariations (u : String) : List String :=
  [ claimedSchemeSwap u, claimedRemoveWww u, claimedAddWww u,
    "https://web.archive.org/web/*/" ++ u ]

/-- The Replacement Finder as claimed: identical control flow, but over
the claimed candidate transformations. -/
def findReplacementClaimed (net : Network) (originalUrl context : String) :
    Replacement :=
  match parseHostname originalUrl with
  | none => .parseError
  | some domain =>
    match firstWorkingVariation net originalUrl (claimedVariations originalUrl) with
    | some (v, r) => .found (chosenUrl r v)
    | none => .notFound
      [ "Search Google: https://www.google.com/search?q="
          ++ encodeURIComponent (domain ++ " " ++ context),
        "Archive: https://web.archive.org/web/*/" ++ originalUrl ]

/-! ## Concrete inputs used by the claim theorems -/

/-- Directory contents holding a record with a parsable pre-epoch date
and a record with a missing date. -/
def c2files : List (String × Option String) :=
  [ ("a.html", some "<meta name=\"article-id\" content=\"A\"><meta name=\"article-date\" content=\"1969-12-31\">"),
    ("b.html", some "<meta name=\"article-id\" content=\"B\">") ]

/-- Directory contents with two parsable dates (spec scenario 3). -/
def c2wfiles : List (String × Option String) :=
  [ ("a.html", some "<meta name=\"article-id\" content=\"A\"><meta name=\"article-date\" content=\"2025-11-10\">"),
    ("b.html", some "<meta name=\"article-id\" content=\"B\"><meta name=\"article-date\" content=\"2025-11-09\">") ]

/-- Two files whose extracted id coincides. -/
def c7files : List (String × Option String) :=
  [ ("a.html", some "<meta name=\"article-id\" content=\"x\">"),
    ("b.html", some "<meta name=\"article-id\" content=\"x\">") ]

/-- A one-file directory with a single id. -/
def c7wfiles : List (String × Option String) :=
  [ ("a.html", some "<meta name=\"article-id\" content=\"y\">") ]

/-- The record of the C10 witness file. -/
def c10wrec : ArticleRecord :=
  extractFields "a.html" "<meta name=\"og:image\" content=\"img.jpg\"><meta name=\"article-id\" content=\"z\">"

/-- Network of the C1 run: the scheme-swapped form of the single embedded
URL is live, everything else (including the original https form) fails. -/
def c1net : Network := fun _ url =>
  if url = "http://dead.example/x.jpg" then
    FetchOutcome.resp 200 false "http://dead.example/x.jpg"
  else FetchOutcome.fail

/-- URL extraction of the C1 run: the file embeds exactly one URL. -/
def c1extract : String → List String := fun _ => ["https://dead.example/x.jpg"]

/-- The articles directory of the C1 run. -/
def c1fs : ReconcilerFS :=
  ⟨some [("a.html", some "<img src=\"https://dead.example/x.jpg\">")], none⟩

/-- A network whose every response is a final 304. -/
def c5net : Network := fun _ _ => FetchOutcome.resp 304 false "https://u.example/r"

/-- Witness for C5_probes: with a network that rejects HEAD, the GET
fallback is issued. -/
def c5wnet : Network := fun m _ =>
  match m with
  | Method.head => FetchOutcome.fail
  | Method.get => FetchOutcome.resp 200 false "https://w.example/"

/-- The (old URL, replacement) pairs of the fixed entries of a results
array, in processing order. -/
def fixedPairs (rs : List URLResult) : List (String × String) :=
  rs.filterMap (fun r =>
    if r.fixed then r.newUrl.map (fun n => (r.url, n)) else none)

/-- The single embedded URL of the C4 run. -/
def c4url : String := "https://dead.example/x.jpg"

/-- The replacement the archive variation yields: it embeds the old URL. -/
def c4new : String := "https://web.archive.org/web/*/https://dead.example/x.jpg"

/-- Network of the C4 run: only the archive snapshot URL is live. -/
def c4net : Network := fun _ url =>
  if url = c4new then FetchOutcome.resp 200 false c4new else FetchOutcome.fail

/-- The article body of the C4 run. -/
def c4content : String := "<img src=\"https://dead.example/x.jpg\">"

/-- The unreachable URL of the C6 counterexample: its only occurrence of
the substring www. sits in the path, not the host. -/
def c6url : String := "http://example.com/www.page.html"

/-- Network of the C6 counterexample: only the path-mangled candidate the
source's textual replace produces is live. -/
def c6net : Network := fun _ url =>
  if url = "http://example.com/page.html" then
    FetchOutcome.resp 200 false "http://example.com/page.html"
  else FetchOutcome.fail

/-- The unreachable URL of the C6 witness. -/
def c6wurl : String := "https://dead.example/x.jpg"

/-- Network of the C6 witness: the scheme-swapped candidate is live. -/
def c6wnet : Network := fun _ url =>
  if url = "http://dead.example/x.jpg" then
    FetchOutcome.resp 200 false "http://dead.example/x.jpg"
  else FetchOutcome.fail

/-! ## Generic lemmas about the stable insertion sort -/

theorem jsOrderedInsert_perm (le : α → α → Bool) (x : α) (s : List α) :
    List.Perm (jsOrderedInsert le x s) (x :: s) := by
  induction s with
  | nil => simp [jsOrderedInsert]
  | cons y ys ih =>
    by_cases h : le x y = true
    · simp [jsOrderedInsert, h]
    · simp only [jsOrderedInsert, h, if_false, Bool.false_eq_true]
      exact ((ih.cons y).trans (List.Perm.swap x y ys))

theorem jsStableSort_perm (le : α → α → Bool) (l : List α) :
    List.Perm (jsStableSort le l) l := by
  induction l with
  | nil => simp [jsStableSort]
  | cons x xs ih =>
    exact (jsOrderedInsert_perm le x (jsStableSort le xs)).trans (ih.cons x)

theorem mem_jsOrderedInsert {le : α → α → Bool} {x a : α} {s : List α} :
    a ∈ jsOrderedInsert le x s ↔ a = x ∨ a ∈ s := by
  rw [(jsOrderedInsert_perm le x s).mem_iff]
  simp

theorem pairwise_jsOrderedInsert {le : α → α → Bool}
    (total : ∀ a b, le a b = true ∨ le b a = true) (x : α) :
    ∀ s : List α,
      (∀ a b c, (a = x ∨ a ∈ s) → (b = x ∨ b ∈ s) → (c = x ∨ c ∈ s) →
        le a b = true → le b c = true → le a c = true) →
      List.Pairwise (fun a b => le a b = true) s →
      List.Pairwise (fun a b => le a b = true) (jsOrderedInsert le x s) := by
  intro s
  induction s with
  | nil => intro _ _; simp [jsOrderedInsert]
  | cons y ys ih =>
    intro htrans hs
    have hy : ∀ z ∈ ys, le y z = true := (List.pairwise_cons.mp hs).1
    have hys : List.Pairwise (fun a b => le a b = true) ys := (List.pairwise_cons.mp hs).2
    by_cases h : le x y = true
    · simp only [jsOrderedInsert, h, if_true]
      refine List.pairwise_cons.mpr ⟨?_, hs⟩
      intro z hz
      rcases List.mem_cons.mp hz with hz | hz
      · subst hz; exact h
      · exact htrans x y z (Or.inl rfl) (Or.inr (List.mem_cons_self y ys))
          (Or.inr (List.mem_cons_of_mem y hz)) h (hy z hz)
    · simp only [jsOrderedInsert, h, if_false, Bool.false_eq_true]
      refine List.pairwise_cons.mpr ⟨?_, ?_⟩
      · intro z hz
        rcases mem_jsOrderedInsert.mp hz with hz | hz
        · rw [hz]
          rcases total x y with ht | ht
          · exact absurd ht h
          · exact ht
        · exact hy z hz
      · refine ih ?_ hys
        intro a b c ha hb hc
        have lift : ∀ w, (w = x ∨ w ∈ ys) → (w = x ∨ w ∈ y :: ys) := by
          intro w hw
          rcases hw with hw | hw
          · exact Or.inl hw
          · exact Or.inr (List.mem_cons_of_mem y hw)
        exact htrans a b c (lift a ha) (lift b hb) (lift c hc)

theorem pairwise_jsStableSort {le : α → α → Bool}
    (total : ∀ a b, le a b = true ∨ le b a = true) :
    ∀ l : List α,
      (∀ a b c, a ∈ l → b ∈ l → c ∈ l →
        le a b = true → le b c = true → le a c = true) →
      List.Pairwise (fun a b => le a b = true) (jsStableSort le l) := by
  intro l
  induction l with
  | nil => intro _; simp [jsStableSort]
  | cons x xs ih =>
    intro htrans
    have hperm := jsStableSort_perm le xs
    show List.Pairwise (fun a b => le a b = true) (jsOrderedInsert le x (jsStableSort le xs))
    refine pairwise_jsOrderedInsert total x (jsStableSort le xs) ?_ ?_
    · intro a b c ha hb hc
      have ms : ∀ z, (z = x ∨ z ∈ jsStableSort le xs) → z ∈ x :: xs := by
        intro z hz
        rcases hz with hz | hz
        · rw [hz]; exact List.mem_cons_self x xs
        · exact List.mem_cons_of_mem x (hperm.mem_iff.mp hz)
      exact htrans a b c (ms a ha) (ms b hb) (ms c hc)
    · refine ih ?_
      intro a b c ha hb hc
      exact htrans a b c (List.mem_cons_of_mem x ha) (List.mem_cons_of_mem x hb)
        (List.mem_cons_of_mem x hc)

theorem filter_jsOrderedInsert {le : α → α → Bool} {p : α → Bool} {x : α}
    (hp : ∀ y, p x = true → p y = true → le x y = true) :
    ∀ s : List α,
      (jsOrderedInsert le x s).filter p =
        if p x then x :: s.filter p else s.filter p := by
  intro s
  induction s with
  | nil => by_cases h : p x <;> simp [jsOrderedInsert, List.filter, h]
  | cons y ys ih =>
    by_cases h : le x y = true
    · simp only [jsOrderedInsert, h, if_true]
      by_cases hx : p x <;> simp [List.filter, hx]
    · simp only [jsOrderedInsert, h, if_false, Bool.false_eq_true]
      by_cases hx : p x
      · have hyp : p y = false := by
          cases hpy : p y
          · rfl
          · exact absurd (hp y hx hpy) h
        simp [List.filter, hyp, ih, hx]
      · have hx' : p x = false := by
          cases hpx : p x
          · rfl
          · exact absurd hpx hx
        by_cases hyp : p y = true <;> simp [List.filter, hyp, ih, hx']

theorem filter_jsStableSort {le : α → α → Bool} {p : α → Bool}
    (hp : ∀ x y, p x = true → p y = true → le x y = true) :
    ∀ l : List α, (jsStableSort le l).filter p = l.filter p := by
  intro l
  induction l with
  | nil => simp [jsStableSort]
  | cons x xs ih =>
    have h1 := @filter_jsOrderedInsert _ le p x
      (fun y => hp x y) (jsStableSort le xs)
    show (jsOrderedInsert le x (jsStableSort le xs)).filter p = _
    by_cases hx : p x
    · simp [h1, hx, ih, List.filter]
    · have hx' : p x = false := by
        cases hpx : p x
        · rfl
        · exact absurd hpx hx
      simp [h1, hx', ih, List.filter]

/-! ## Properties of the record comparator -/

theorem recordLE_total : ∀ a b : ArticleRecord,
    recordLE a b = true ∨ recordLE b a = true := by
  intro a b
  unfold recordLE cmpRecords
  cases ka : sortKeyMs a <;> cases kb : sortKeyMs b
  all_goals simp
  omega

theorem recordLE_trans {a b c : ArticleRecord}
    (ha : (sortKeyMs a).isSome = true) (hb : (sortKeyMs b).isSome = true)
    (hc : (sortKeyMs c).isSome = true) :
    recordLE a b = true → recordLE b c = true → recordLE a c = true := by
  obtain ⟨va, hva⟩ := Option.isSome_iff_exists.mp ha
  obtain ⟨vb, hvb⟩ := Option.isSome_iff_exists.mp hb
  obtain ⟨vc, hvc⟩ := Option.isSome_iff_exists.mp hc
  unfold recordLE cmpRecords
  rw [hva, hvb, hvc]
  simp
  omega

theorem recordLE_of_keys_eq {a b : ArticleRecord}
    (h : sortKeyMs a = sortKeyMs b) : recordLE a b = true := by
  unfold recordLE cmpRecords
  rw [h]
  cases sortKeyMs b <;> simp

/-! ## Claim C2 — index ordering by publish date -/

/-- C2, counterexample.  The claim says a record with a missing
publishDate sorts as the oldest possible date and therefore appears after
every record with a parsable date.  In the index built from c2files the
record B has no article-date marker (publishDate empty) while A carries
the parsable date 1969-12-31 — yet B is listed first, because a missing
date defaults to the literal 1970-01-01, which is newer than 1969-12-31,
not the oldest possible date. -/
theorem C2_counterexample :
    (regenerateRecords c2files).map ArticleRecord.id = ["B", "A"]
    ∧ (extractFields "b.html" "<meta name=\"article-id\" content=\"B\">").publishDate = ""
    ∧ (jsDateMs "1969-12-31").isSome = true := by
  decide

/-- C2, amended.  For records whose (defaulted) publish dates all parse,
the index is ordered newest first: any record appearing before another has
a publish-date time value at least as large.  Records with the same sort
key — including all ties — keep the original directory-scan order (the
sort is stable).  A missing publishDate defaults to the literal
1970-01-01 rather than the oldest possible date, which is why the original
claim fails. -/
theorem C2_ordering : ∀ files : List (String × Option String),
    (∀ r ∈ keptRecords files, (sortKeyMs r).isSome = true) →
    List.Pairwise (fun a b => ∀ va vb,
        sortKeyMs a = some va → sortKeyMs b = some vb → vb ≤ va)
      (regenerateRecords files)
    ∧ ∀ k : Option Int,
        (regenerateRecords files).filter (fun r => sortKeyMs r == k) =
          (keptRecords files).filter (fun r => sortKeyMs r == k) := by
  intro files hsome
  constructor
  · have hp : List.Pairwise (fun a b => recordLE a b = true)
        (jsStableSort recordLE (keptRecords files)) := by
      refine pairwise_jsStableSort recordLE_total (keptRecords files) ?_
      intro a b c ha hb hc
      exact recordLE_trans (hsome a ha) (hsome b hb) (hsome c hc)
    refine List.Pairwise.imp ?_ hp
    intro a b hab va vb hva hvb
    have : cmpRecords a b ≤ 0 := by
      have := of_decide_eq_true hab
      exact this
    unfold cmpRecords at this
    rw [hva, hvb] at this
    simp at this
    omega
  · intro k
    refine filter_jsStableSort ?_ (keptRecords files)
    intro x y hx hy
    have hxk : sortKeyMs x = k := by simpa using hx
    have hyk : sortKeyMs y = k := by simpa using hy
    exact recordLE_of_keys_eq (hxk.trans hyk.symm)

/-- Witness for C2_ordering at a concrete directory. -/
theorem C2_ordering_witness :
    (∀ r ∈ keptRecords c2wfiles, (sortKeyMs r).isSome = true)
    ∧ (List.Pairwise (fun a b => ∀ va vb,
          sortKeyMs a = some va → sortKeyMs b = some vb → vb ≤ va)
        (regenerateRecords c2wfiles)
      ∧ ∀ k : Option Int,
          (regenerateRecords c2wfiles).filter (fun r => sortKeyMs r == k) =
            (keptRecords c2wfiles).filter (fun r => sortKeyMs r == k)) :=
  ⟨by decide, C2_ordering c2wfiles (by decide)⟩

/-! ## Claim C7 — index completeness per extracted id -/

theorem countP_filterMap (g : α → Option β) (p : β → Bool) :
    ∀ l : List α, (l.filterMap g).countP p
      = l.countP (fun x => match g x with | some y => p y | none => false) := by
  intro l
  induction l with
  | nil => simp
  | cons x xs ih =>
    cases hg : g x with
    | none => simp [List.filterMap_cons, hg, List.countP_cons, ih]
    | some y => simp [List.filterMap_cons, hg, List.countP_cons, ih]

/-- C7, counterexample.  The claim promises exactly one index record per
extracted non-empty id; when two distinct files carry the same id marker
the index holds two records with that id (the Builder deduplicates
nothing). -/
theorem C7_counterexample :
    ((regenerateRecords c7files).filter (fun r => r.id == "x")).length = 2
    ∧ (extractMetadataFromHTML "a.html"
        (some "<meta name=\"article-id\" content=\"x\">")).map ArticleRecord.id
      = some "x" := by
  decide

/-- C7, amended.  For every non-empty id value, the number of index
records carrying that id equals the number of .html files whose extraction
yields that id (one record per file — hence exactly one when ids are
pairwise distinct across files, as the data model assumes); and no record
with an empty id, or from a file whose extraction failed, is ever
indexed. -/
theorem C7_completeness : ∀ (files : List (String × Option String)) (i : String),
    i ≠ "" →
    ((regenerateRecords files).countP (fun r => r.id == i) =
      (files.filter (fun f => jsEndsWith f.1 ".html")).countP (fun f =>
        match extractMetadataFromHTML f.1 f.2 with
        | some m => m.id == i
        | none => false))
    ∧ (regenerateRecords files).countP (fun r => r.id == "") = 0 := by
  intro files i hi
  have hperm := jsStableSort_perm recordLE (keptRecords files)
  constructor
  · show (jsStableSort recordLE (keptRecords files)).countP _ = _
    rw [hperm.countP_eq]
    unfold keptRecords
    rw [countP_filterMap]
    apply List.countP_congr
    intro f _
    cases hx : extractMetadataFromHTML f.1 f.2 with
    | none => simp
    | some m =>
      by_cases hm : m.id = ""
      · simp [hm]
        exact fun h => hi h.symm
      · simp [hm]
  · show (jsStableSort recordLE (keptRecords files)).countP _ = 0
    rw [hperm.countP_eq]
    rw [List.countP_eq_zero]
    intro r hr
    unfold keptRecords at hr
    obtain ⟨f, _, hg⟩ := List.mem_filterMap.mp hr
    cases hx : extractMetadataFromHTML f.1 f.2 with
    | none => rw [hx] at hg; exact absurd hg (by simp)
    | some m =>
      rw [hx] at hg
      by_cases hm : m.id = ""
      · simp [hm] at hg
      · simp [hm] at hg
        rw [← hg]
        simpa using hm

/-- Witness for C7_completeness at a concrete directory. -/
theorem C7_completeness_witness :
    ("y" ≠ "")
    ∧ (((regenerateRecords c7wfiles).countP (fun r => r.id == "y") =
        (c7wfiles.filter (fun f => jsEndsWith f.1 ".html")).countP (fun f =>
          match extractMetadataFromHTML f.1 f.2 with
          | some m => m.id == "y"
          | none => false))
      ∧ (regenerateRecords c7wfiles).countP (fun r => r.id == "") = 0) :=
  ⟨by decide, C7_completeness c7wfiles "y" (by decide)⟩

/-! ## Claim C8 — idempotence of the Index Builder -/

/-- C8, confirmed.  A regeneration run reads only the articles directory
and overwrites only the index file, so a second run over the unchanged
directory recomputes exactly the same serialized bytes: the filesystem
after two runs equals the filesystem after one (in particular the index
file is byte-identical), and both runs end with status 0. -/
theorem C8_idempotent : ∀ fs : WatchFS,
    regenerateArticlesJSON (regenerateArticlesJSON fs).1
      = ((regenerateArticlesJSON fs).1, 0) := by
  intro fs
  cases fs with
  | mk articles indexFile =>
    cases articles with
    | none => rfl
    | some files => rfl

/-! ## Claim C10 — thumbnailImage always equals bannerImage -/

/-- C10, confirmed.  Both fields are read from the og:image marker, so
every record the extractor produces — and therefore every record of any
built index — has identical thumbnailImage and bannerImage. -/
theorem C10_thumbnail_eq_banner :
    (∀ (fn : String) (c : Option String) (m : ArticleRecord),
        extractMetadataFromHTML fn c = some m → m.thumbnailImage = m.bannerImage)
    ∧ ∀ (files : List (String × Option String)) (r : ArticleRecord),
        r ∈ regenerateRecords files → r.thumbnailImage = r.bannerImage := by
  constructor
  · intro fn c m hm
    cases c with
    | none => exact absurd hm (by simp [extractMetadataFromHTML])
    | some s =>
      have : extractFields fn s = m := by
        simpa [extractMetadataFromHTML] using hm
      rw [← this]
      rfl
  · intro files r hr
    have hr2 : r ∈ keptRecords files :=
      (jsStableSort_perm recordLE (keptRecords files)).mem_iff.mp hr
    unfold keptRecords at hr2
    obtain ⟨f, _, hg⟩ := List.mem_filterMap.mp hr2
    cases hx : extractMetadataFromHTML f.1 f.2 with
    | none => rw [hx] at hg; simp at hg
    | some m =>
      rw [hx] at hg
      by_cases hm : m.id = ""
      · simp [hm] at hg
      · simp [hm] at hg
        rw [← hg]
        cases f with
        | mk fn c =>
          cases c with
          | none => exact absurd hx (by simp [extractMetadataFromHTML])
          | some s =>
            have : extractFields fn s = m := by
              simpa [extractMetadataFromHTML] using hx
            rw [← this]
            rfl

/-- Witness for C10_thumbnail_eq_banner at a concrete file. -/
theorem C10_witness :
    extractMetadataFromHTML "a.html"
      (some "<meta name=\"og:image\" content=\"img.jpg\"><meta name=\"article-id\" content=\"z\">")
      = some c10wrec
    ∧ c10wrec.thumbnailImage = c10wrec.bannerImage :=
  ⟨rfl, C10_thumbnail_eq_banner.1 "a.html"
    (some "<meta name=\"og:image\" content=\"img.jpg\"><meta name=\"article-id\" content=\"z\">")
    c10wrec rfl⟩

/-! ## Claim C9 — debounce collapses a burst into one rebuild -/

theorem debounce_run_aux :
    ∀ (es : List Nat) (t : Nat) (fired : List Nat),
      List.Chain' (fun a b => a ≤ b ∧ b < a + debounceWindowMs) (t :: es) →
      es.foldl debounceStep ⟨some (t + debounceWindowMs), fired⟩
        = ⟨some (es.getLastD t + debounceWindowMs), fired⟩ := by
  intro es
  induction es with
  | nil => intro t fired _; rfl
  | cons e es ih =>
    intro t fired hchain
    have h1 : t ≤ e ∧ e < t + debounceWindowMs :=
      (List.chain'_cons.mp hchain).1
    have h2 : List.Chain' (fun a b => a ≤ b ∧ b < a + debounceWindowMs) (e :: es) :=
      (List.chain'_cons.mp hchain).2
    have hstep : debounceStep ⟨some (t + debounceWindowMs), fired⟩ e
        = ⟨some (e + debounceWindowMs), fired⟩ := by
      have : ¬(t + debounceWindowMs ≤ e) := by omega
      simp [debounceStep, this]
    show List.foldl debounceStep
        (debounceStep ⟨some (t + debounceWindowMs), fired⟩ e) es = _
    rw [hstep, ih e fired h2, List.getLastD_cons]

/-- C9, confirmed.  For any non-empty burst of qualifying events in which
every event arrives strictly within the one-second window of its
predecessor, exactly one rebuild is invoked, and it fires at the last
event's time plus the window: every earlier event's timer is cleared and
replaced (reset, not stacked) before it can fire. -/
theorem C9_debounce : ∀ events : List Nat,
    events ≠ [] →
    List.Chain' (fun a b => a ≤ b ∧ b < a + debounceWindowMs) events →
    rebuildTimes events = [events.getLastD 0 + debounceWindowMs] := by
  intro events hne hchain
  cases events with
  | nil => exact absurd rfl hne
  | cons t es =>
    have hfoldl : List.foldl debounceStep (⟨none, []⟩ : DebounceState) (t :: es)
        = ⟨some (es.getLastD t + debounceWindowMs), []⟩ := by
      rw [show List.foldl debounceStep (⟨none, []⟩ : DebounceState) (t :: es)
          = List.foldl debounceStep (debounceStep ⟨none, []⟩ t) es from rfl]
      rw [show debounceStep (⟨none, []⟩ : DebounceState) t
          = ⟨some (t + debounceWindowMs), []⟩ from rfl]
      exact debounce_run_aux es t [] hchain
    simp only [rebuildTimes, hfoldl, List.getLastD_cons]
    rfl

/-- Witness for C9_debounce: three events inside one window produce a
single rebuild, one second after the last event. -/
theorem C9_debounce_witness :
    (([0, 500, 900] : List Nat) ≠ []
      ∧ List.Chain' (fun a b => a ≤ b ∧ b < a + debounceWindowMs) [0, 500, 900])
    ∧ rebuildTimes [0, 500, 900] = [[0, 500, 900].getLastD 0 + debounceWindowMs] := by
  have hchain : List.Chain' (fun a b => a ≤ b ∧ b < a + debounceWindowMs)
      [0, 500, 900] := by
    norm_num [List.chain'_cons, debounceWindowMs]
  exact ⟨⟨by decide, hchain⟩, C9_debounce [0, 500, 900] (by decide) hchain⟩

/-! ## Claim C3 — behaviour on an unreadable primary input -/

/-- C3, counterexample.  The claim says every run whose primary input is
unreadable terminates the process with a non-zero status.  The Reconciler
does (see C3_fatal), but regenerateArticlesJSON merely logs the caught
error and returns: the run signals success (status 0) and the process is
not terminated.  No output is written (the filesystem is unchanged), but
the non-zero-exit half of the claim is false for the Index Builder. -/
theorem C3_counterexample :
    regenerateArticlesJSON ⟨none, none⟩ = (⟨none, none⟩, 0) := rfl

/-- C3, amended.  With an unreadable primary input the Reconciler exits
with status 1 and writes nothing (neither report nor article files), while
the Index Builder regeneration writes nothing either but swallows the
error and continues with status 0 — it does not terminate the process. -/
theorem C3_fatal : ∀ (net : Network) (extractURLs : String → List String)
    (rfs : ReconcilerFS) (wfs : WatchFS),
    (rfs.articles = none → validateAllArticles net extractURLs rfs = (rfs, 1))
    ∧ (wfs.articles = none → regenerateArticlesJSON wfs = (wfs, 0)) := by
  intro net extractURLs rfs wfs
  constructor
  · intro h
    unfold validateAllArticles
    rw [h]
  · intro h
    unfold regenerateArticlesJSON
    rw [h]

/-- Witness for C3_fatal at concrete unreadable filesystems. -/
theorem C3_fatal_witness :
    ((⟨none, none⟩ : ReconcilerFS).articles = none
      ∧ (⟨none, none⟩ : WatchFS).articles = none)
    ∧ (validateAllArticles (fun _ _ => FetchOutcome.fail) (fun _ => [])
        ⟨none, none⟩ = (⟨none, none⟩, 1)
      ∧ regenerateArticlesJSON ⟨none, some "old"⟩ = (⟨none, some "old"⟩, 0)) :=
  ⟨⟨rfl, rfl⟩,
    ⟨(C3_fatal (fun _ _ => FetchOutcome.fail) (fun _ => []) ⟨none, none⟩
        ⟨none, some "old"⟩).1 rfl,
      (C3_fatal (fun _ _ => FetchOutcome.fail) (fun _ => []) ⟨none, none⟩
        ⟨none, some "old"⟩).2 rfl⟩⟩

/-! ## Claim C1 — report counts for a broken URL that gets fixed -/

/-- C1, evaluation at the failing input.  One URL is checked, found
broken, and fixed by the scheme-swap replacement — yet the emitted summary
reads 1 checked / 0 broken / 1 fixed with stillBroken -1, because the
per-file broken list excludes the entries that were fixed while the
stillBroken field still subtracts the fixed count from it.  The claim
(1 checked / 1 broken / 1 fixed, 0 still broken) describes the evident
intent; the code's own stillBroken arithmetic goes negative. -/
theorem C1_report_eval :
    validateAllArticles c1net c1extract c1fs =
      (⟨some [("a.html", some "<img src=\"http://dead.example/x.jpg\">")],
        some ⟨1, 1, 0, 1, -1⟩⟩, 0) := by
  decide

/-! ## Claim C5 — probe fallback and reachability classification -/

/-- C5, counterexample.  The claim classifies a final status in the
2xx/3xx range as reachable; the code uses fetch's response.ok, which is
true only for 2xx.  A final 304 (in 3xx, hence reachable per the claim)
is classified unreachable. -/
theorem C5_counterexample :
    (checkURL c5net "https://u.example/a").ok = false
    ∧ (checkURL c5net "https://u.example/a").status = 304
    ∧ (200 ≤ 304 ∧ 304 < 400) := by
  decide

/-- C5, amended.  The GET fallback is issued exactly when the HEAD probe
itself throws (never merely on a non-success status); a probe is
classified reachable exactly when the response it settles on — HEAD's, or
GET's when HEAD threw — has a final post-redirect status in the 2xx range
(response.ok), not 2xx/3xx; and when both probes throw the result is
unreachable with status 0. -/
theorem C5_probes : ∀ (net : Network) (url : String),
    ((Method.get ∈ checkURLProbes net url) ↔ net Method.head url = FetchOutcome.fail)
    ∧ ((checkURL net url).ok = true ↔
        ∃ s r f, effectiveResponse net url = FetchOutcome.resp s r f
          ∧ 200 ≤ s ∧ s < 300)
    ∧ (effectiveResponse net url = FetchOutcome.fail →
        (checkURL net url).ok = false ∧ (checkURL net url).status = 0) := by
  intro net url
  cases hh : net Method.head url with
  | fail =>
    cases hg : net Method.get url with
    | fail => simp [checkURL, checkURLProbes, effectiveResponse, hh, hg]
    | resp s r f =>
      simp [checkURL, checkURLProbes, effectiveResponse, hh, hg]
  | resp s r f =>
    simp [checkURL, checkURLProbes, effectiveResponse, hh]

/-- Witness for C5_probes at a concrete network. -/
theorem C5_probes_witness :
    (c5wnet Method.head "https://w.example/" = FetchOutcome.fail)
    ∧ Method.get ∈ checkURLProbes c5wnet "https://w.example/" :=
  ⟨rfl, ((C5_probes c5wnet "https://w.example/").1).mpr rfl⟩

/-! ## Claim C4 — global substitution and the single write per file -/

theorem fixedPairs_cons_fixed (u : String) (st : Nat) (n : String)
    (rs : List URLResult) :
    fixedPairs (⟨u, st, true, some n⟩ :: rs) = (u, n) :: fixedPairs rs := by
  simp [fixedPairs, List.filterMap_cons]

theorem fixedPairs_cons_unfixed (u : String) (st : Nat) (rs : List URLResult) :
    fixedPairs (⟨u, st, false, none⟩ :: rs) = fixedPairs rs := by
  simp [fixedPairs, List.filterMap_cons]

theorem processURLs_content_foldl (net : Network) (ctx : String) :
    ∀ (urls : List String) (content : String),
      (processURLs net ctx urls content).1
        = List.foldl (fun s p => replaceURL s p.1 p.2) content
            (fixedPairs (processURLs net ctx urls content).2.1) := by
  intro urls
  induction urls with
  | nil => intro content; simp [processURLs, fixedPairs]
  | cons u rest ih =>
    intro content
    by_cases hok : (checkURL net u).ok = true
    · simp only [processURLs, hok, if_true]
      exact ih content
    · have hok' : (checkURL net u).ok = false := by
        cases h : (checkURL net u).ok
        · rfl
        · exact absurd h hok
      cases hrep : findReplacementURL net u ctx with
      | found newUrl =>
        simp only [processURLs, hok', hrep, Bool.false_eq_true, if_false]
        rw [fixedPairs_cons_fixed, List.foldl_cons]
        exact ih (replaceURL content u newUrl)
      | notFound sugg =>
        simp only [processURLs, hok', hrep, Bool.false_eq_true, if_false]
        rw [fixedPairs_cons_unfixed]
        exact ih content
      | parseError =>
        simp only [processURLs, hok', hrep, Bool.false_eq_true, if_false]
        rw [fixedPairs_cons_unfixed]
        exact ih content

theorem processURLs_count (net : Network) (ctx : String) :
    ∀ (urls : List String) (content : String),
      (processURLs net ctx urls content).2.2
        = ((processURLs net ctx urls content).2.1.filter
            (fun r => r.fixed)).length := by
  intro urls
  induction urls with
  | nil => intro content; simp [processURLs]
  | cons u rest ih =>
    intro content
    by_cases hok : (checkURL net u).ok = true
    · simp only [processURLs, hok, if_true]
      exact ih content
    · have hok' : (checkURL net u).ok = false := by
        cases h : (checkURL net u).ok
        · rfl
        · exact absurd h hok
      cases hrep : findReplacementURL net u ctx with
      | found newUrl =>
        simp only [processURLs, hok', hrep, Bool.false_eq_true, if_false]
        rw [List.filter_cons]
        simp only [if_true]
        rw [List.length_cons, ih (replaceURL content u newUrl)]
      | notFound sugg =>
        simp only [processURLs, hok', hrep, Bool.false_eq_true, if_false]
        rw [List.filter_cons]
        simp only [Bool.false_eq_true, if_false]
        exact ih content
      | parseError =>
        simp only [processURLs, hok', hrep, Bool.false_eq_true, if_false]
        rw [List.filter_cons]
        simp only [Bool.false_eq_true, if_false]
        exact ih content

theorem processURLs_fixedPairs_length (net : Network) (ctx : String) :
    ∀ (urls : List String) (content : String),
      (fixedPairs (processURLs net ctx urls content).2.1).length
        = (processURLs net ctx urls content).2.2 := by
  intro urls
  induction urls with
  | nil => intro content; simp [processURLs, fixedPairs]
  | cons u rest ih =>
    intro content
    by_cases hok : (checkURL net u).ok = true
    · simp only [processURLs, hok, if_true]
      exact ih content
    · have hok' : (checkURL net u).ok = false := by
        cases h : (checkURL net u).ok
        · rfl
        · exact absurd h hok
      cases hrep : findReplacementURL net u ctx with
      | found newUrl =>
        simp only [processURLs, hok', hrep, Bool.false_eq_true, if_false]
        rw [fixedPairs_cons_fixed, List.length_cons,
          ih (replaceURL content u newUrl)]
      | notFound sugg =>
        simp only [processURLs, hok', hrep, Bool.false_eq_true, if_false]
        rw [fixedPairs_cons_unfixed]
        exact ih content
      | parseError =>
        simp only [processURLs, hok', hrep, Bool.false_eq_true, if_false]
        rw [fixedPairs_cons_unfixed]
        exact ih content

/-- C4, counterexample.  The URL is marked fixed (archive replacement),
every occurrence is substituted, and yet the persisted file content still
contains the old URL — as a substring of the replacement, which embeds
it.  The claim that the persisted content contains no occurrence of the
old URL is false. -/
theorem C4_counterexample :
    (validateArticle c4net (fun _ => [c4url]) "a.html" (some c4content)).results
      = [⟨c4url, 0, true, some c4new⟩]
    ∧ (validateArticle c4net (fun _ => [c4url]) "a.html" (some c4content)).file.2
        = some ("<img src=\"" ++ c4new ++ "\">")
    ∧ containsStr c4url ("<img src=\"" ++ c4new ++ "\">") = true := by
  decide

/-- C4, amended.  Per run a file receives at most one write; a write
happens exactly when at least one URL was fixed, and the written content
is the working copy after applying, in processing order, one global
left-to-right textual substitution per fixed URL.  (Each substitution
replaces every occurrence present at that moment; the old URL can still
appear in the persisted bytes inside text a replacement inserted — e.g.
an archive URL embedding it — which is what the counterexample shows.) -/
theorem C4_replacement : ∀ (net : Network) (extractURLs : String → List String)
    (fp c : String),
    (validateArticle net extractURLs fp (some c)).writes.length ≤ 1
    ∧ ((validateArticle net extractURLs fp (some c)).writes
        = if 0 < ((validateArticle net extractURLs fp (some c)).results.filter
            (fun r => r.fixed)).length
          then [List.foldl (fun s p => replaceURL s p.1 p.2) c
                  (fixedPairs (validateArticle net extractURLs fp (some c)).results)]
          else [])
    ∧ (validateArticle net extractURLs fp (some c)).file.2
        = some (List.foldl (fun s p => replaceURL s p.1 p.2) c
            (fixedPairs (validateArticle net extractURLs fp (some c)).results)) := by
  intro net extractURLs fp c
  have hres : (validateArticle net extractURLs fp (some c)).results
      = (processURLs net fp (extractURLs c) c).2.1 := rfl
  have hwrites : (validateArticle net extractURLs fp (some c)).writes
      = if 0 < (processURLs net fp (extractURLs c) c).2.2
        then [(processURLs net fp (extractURLs c) c).1] else [] := rfl
  have hfile : (validateArticle net extractURLs fp (some c)).file.2
      = some (if 0 < (processURLs net fp (extractURLs c) c).2.2
          then (processURLs net fp (extractURLs c) c).1 else c) := rfl
  refine ⟨?_, ?_, ?_⟩
  · rw [hwrites]
    by_cases h : 0 < (processURLs net fp (extractURLs c) c).2.2
    · rw [if_pos h]; simp
    · rw [if_neg h]; simp
  · rw [hwrites, hres, ← processURLs_count net fp (extractURLs c) c]
    by_cases h : 0 < (processURLs net fp (extractURLs c) c).2.2
    · rw [if_pos h, if_pos h, ← processURLs_content_foldl net fp (extractURLs c) c]
    · rw [if_neg h, if_neg h]
  · rw [hfile, hres]
    by_cases h : 0 < (processURLs net fp (extractURLs c) c).2.2
    · rw [if_pos h, ← processURLs_content_foldl net fp (extractURLs c) c]
    · rw [if_neg h]
      have h0 : (fixedPairs (processURLs net fp (extractURLs c) c).2.1).length = 0 := by
        rw [processURLs_fixedPairs_length]
        omega
      rw [List.length_eq_zero.mp h0, List.foldl_nil]

/-! ## Claim C6 — candidate order of the Replacement Finder -/

theorem firstWorkingVariation_eq_find (net : Network) (u : String) :
    ∀ l : List String,
      firstWorkingVariation net u l
        = (l.find? (fun w => w != u && (checkURL net w).ok)).map
            (fun w => (w, checkURL net w)) := by
  intro l
  induction l with
  | nil => rfl
  | cons v vs ih =>
    simp only [firstWorkingVariation, List.find?]
    by_cases hv : v = u
    · subst hv
      simp [ih, bne_self_eq_false]
    · have hbne : (v != u) = true := bne_iff_ne.mpr hv
      by_cases hok : (checkURL net v).ok = true
      · simp [hv, hbne, hok]
      · have hok' : (checkURL net v).ok = false := by
          cases hh : (checkURL net v).ok
          · rfl
          · exact absurd hh hok
        simp [hv, hbne, hok', ih]

/-- C6, counterexample.  The claimed candidates are host-label operations
(remove/add a leading www. host label) and a scheme swap; the source
instead performs textual first-occurrence replaces (and its www-adding
variant also forces the scheme to https).  On c6url the source's second
candidate deletes www. from the path, producing and accepting
http://example.com/page.html — a URL the claimed procedure never probes,
which instead ends with no replacement and the two suggestion strings. -/
theorem C6_counterexample :
    findReplacementURL c6net c6url "ctx"
      = Replacement.found "http://example.com/page.html"
    ∧ findReplacementClaimed c6net c6url "ctx"
      = Replacement.notFound
        [ "Search Google: https://www.google.com/search?q=example.com%20ctx",
          "Archive: https://web.archive.org/web/*/http://example.com/www.page.html" ] := by
  decide

/-- C6, amended.  For a parsable URL the finder probes the source's four
textual variations in order — first https:// occurrence swapped to
http://, first www. occurrence removed, scheme prefix replaced by
https://www. (forcing https), web-archive lookup — skipping candidates
equal to the original; the first one the Liveness Checker accepts wins
(its post-redirect final URL is reported) and nothing further is tried;
when none is accepted the result carries exactly the two manual-lookup
hint strings (search-engine query and web-archive lookup). -/
theorem C6_first_success : ∀ (net : Network) (u context host : String),
    parseHostname u = some host →
    (∀ v, (variations u).find? (fun w => w != u && (checkURL net w).ok) = some v →
        findReplacementURL net u context
          = Replacement.found (chosenUrl (checkURL net v) v))
    ∧ ((variations u).find? (fun w => w != u && (checkURL net w).ok) = none →
        findReplacementURL net u context
          = Replacement.notFound
            [ "Search Google: https://www.google.com/search?q="
                ++ encodeURIComponent (host ++ " " ++ context),
              "Archive: https://web.archive.org/web/*/" ++ u ]) := by
  intro net u context host hhost
  constructor
  · intro v hfind
    unfold findReplacementURL
    rw [hhost, firstWorkingVariation_eq_find net u (variations u), hfind]
    rfl
  · intro hnone
    unfold findReplacementURL
    rw [hhost, firstWorkingVariation_eq_find net u (variations u), hnone]
    rfl

/-- Witness for C6_first_success at a concrete network and URL. -/
theorem C6_first_success_witness :
    (parseHostname c6wurl = some "dead.example"
      ∧ (variations c6wurl).find?
          (fun w => w != c6wurl && (checkURL c6wnet w).ok)
        = some "http://dead.example/x.jpg")
    ∧ findReplacementURL c6wnet c6wurl "c"
        = Replacement.found
            (chosenUrl (checkURL c6wnet "http://dead.example/x.jpg")
              "http://dead.example/x.jpg") :=
  ⟨⟨by decide, by decide⟩,
    (C6_first_success c6wnet c6wurl "c" "dead.example" (by decide)).1
      "http://dead.example/x.jpg" (by decide)⟩
